import Mathlib

/-!
Verification of the IRVS remote-access agent core: the wire codec
(SerializableMessage Serialize/Deserialize), the XOR cipher
(EncryptionManager), the control-plane command interpreter
(RemoteDesktopServer::ExecuteCommand), the Session lifecycle, and the
IPC broker (IPCBroker) from src/AgentCore/IPC/IPCFramework.cpp and
src/RemoteDesktopServer/RemoteDesktopServer.cpp.

Bytes are modelled as Fin 256 (the C++ code stores them in uint8_t /
char); byte sequences as List (Fin 256).
-/

/-- A byte, as stored in a C++ uint8_t. -/
abbrev Byte := Fin 256

/-- Truncation of a natural number to a byte, as in static_cast<uint8_t>(n). -/
def byteOf (n : Nat) : Byte := ⟨n % 256, Nat.mod_lt _ (by norm_num)⟩

/-- The message shape serialized on the wire.  Mirrors the C++ class
SerializableMessage (include/RemoteDesktopServer/RemoteDesktopServer.h):
a MessageType stored in one byte, three byte strings and a uint64
timestamp.  The C++ enum is stored as a raw byte, and
Deserialize casts an arbitrary byte back into it, so the type field is
modelled as the raw byte value (CONTROL=0 .. CLIPBOARD=6, UNDEFINED=255). -/
structure SerializableMessage where
  type : Byte
  source : List Byte
  target : List Byte
  content : List Byte
  timestamp : Nat
deriving DecidableEq, Repr

/-- The default-constructed SerializableMessage: type UNDEFINED (255),
empty strings, zero timestamp. -/
def SerializableMessage.defaultMsg : SerializableMessage :=
  { type := ⟨255, by norm_num⟩, source := [], target := [], content := [], timestamp := 0 }

/-- SerializableMessage::Serialize.  Emits
[type:1][source_len:2][target_len:2][content_len:4][timestamp:8][source][target][content]
with little-endian multi-byte integers.  The C++ casts source.size() to
uint16_t and content.size() to uint32_t before splitting into bytes;
byteOf applied to the shifted values reproduces those bytes exactly. -/
def SerializableMessage.Serialize (m : SerializableMessage) : List Byte :=
  m.type ::
  byteOf m.source.length :: byteOf (m.source.length / 2 ^ 8) ::
  byteOf m.target.length :: byteOf (m.target.length / 2 ^ 8) ::
  byteOf m.content.length :: byteOf (m.content.length / 2 ^ 8) ::
  byteOf (m.content.length / 2 ^ 16) :: byteOf (m.content.length / 2 ^ 24) ::
  byteOf m.timestamp :: byteOf (m.timestamp / 2 ^ 8) ::
  byteOf (m.timestamp / 2 ^ 16) :: byteOf (m.timestamp / 2 ^ 24) ::
  byteOf (m.timestamp / 2 ^ 32) :: byteOf (m.timestamp / 2 ^ 40) ::
  byteOf (m.timestamp / 2 ^ 48) :: byteOf (m.timestamp / 2 ^ 56) ::
  (m.source ++ m.target ++ m.content)

/-- The source length declared by a buffer's header: data[1] | data[2] << 8. -/
def declaredSourceLen (data : List Byte) : Nat :=
  (data.getD 1 0).val + 256 * (data.getD 2 0).val

/-- The target length declared by a buffer's header: data[3] | data[4] << 8. -/
def declaredTargetLen (data : List Byte) : Nat :=
  (data.getD 3 0).val + 256 * (data.getD 4 0).val

/-- The content length declared by a buffer's header:
data[5] | data[6] << 8 | data[7] << 16 | data[8] << 24. -/
def declaredContentLen (data : List Byte) : Nat :=
  (data.getD 5 0).val + 256 * (data.getD 6 0).val +
  65536 * (data.getD 7 0).val + 16777216 * (data.getD 8 0).val

/-- The timestamp read from bytes 9..16 of the header, little endian. -/
def declaredTimestamp (data : List Byte) : Nat :=
  (data.getD 9 0).val + 2 ^ 8 * (data.getD 10 0).val +
  2 ^ 16 * (data.getD 11 0).val + 2 ^ 24 * (data.getD 12 0).val +
  2 ^ 32 * (data.getD 13 0).val + 2 ^ 40 * (data.getD 14 0).val +
  2 ^ 48 * (data.getD 15 0).val + 2 ^ 56 * (data.getD 16 0).val

/-- SerializableMessage::Deserialize.  Returns the default-constructed
message when fewer than 17 bytes are present or when the declared total
size 17 + sourceLen + targetLen + contentLen exceeds the available
bytes; otherwise slices source, target and content at the declared
offsets (the C++ std::string::assign of sourceLen bytes from offset 17,
and so on). -/
def SerializableMessage.Deserialize (data : List Byte) : SerializableMessage :=
  if data.length < 17 then SerializableMessage.defaultMsg
  else
    let sourceLen := declaredSourceLen data
    let targetLen := declaredTargetLen data
    let contentLen := declaredContentLen data
    if data.length < 17 + sourceLen + targetLen + contentLen then
      SerializableMessage.defaultMsg
    else
      { type := data.getD 0 0
        source := (data.drop 17).take sourceLen
        target := (data.drop (17 + sourceLen)).take targetLen
        content := (data.drop (17 + sourceLen + targetLen)).take contentLen
        timestamp := declaredTimestamp data }

/-- Modelled from the spec: the hardened decode result of section 4.2,
whose failures are distinguishable error kinds.  The repository's
Deserialize returns a plain message, so this Except-valued decode exists
only to state the spec's claim about error kinds. -/
inductive FrameError where
  | Truncated
  | Incomplete
deriving DecidableEq, Repr

/-- Modelled from the spec: decode(bytes) -> Result<frame, FrameError>
fails with Truncated if fewer than 17 header bytes are present,
Incomplete if the declared total length exceeds the available bytes,
and succeeds otherwise by slicing at the declared offsets. -/
def decodeSpec (data : List Byte) : Except FrameError SerializableMessage :=
  if data.length < 17 then Except.error FrameError.Truncated
  else
    let sourceLen := declaredSourceLen data
    let targetLen := declaredTargetLen data
    let contentLen := declaredContentLen data
    if data.length < 17 + sourceLen + targetLen + contentLen then
      Except.error FrameError.Incomplete
    else
      Except.ok
        { type := data.getD 0 0
          source := (data.drop 17).take sourceLen
          target := (data.drop (17 + sourceLen)).take targetLen
          content := (data.drop (17 + sourceLen + targetLen)).take contentLen
          timestamp := declaredTimestamp data }

/-! ## Cipher: EncryptionManager -/

/-- XOR of two bytes, as in uint8 ^ uint8. -/
def bxor (a b : Byte) : Byte :=
  ⟨a.val ^^^ b.val, Nat.xor_lt_two_pow (n := 8) a.isLt b.isLt⟩

/-- The body of EncryptionManager::Encrypt's loop, starting at index i:
encrypted[i] = data[i] ^ _key[i % 32]. -/
def encryptFrom (key : Fin 32 → Byte) : Nat → List Byte → List Byte
  | _, [] => []
  | i, b :: rest => bxor b (key ⟨i % 32, Nat.mod_lt _ (by norm_num)⟩) :: encryptFrom key (i + 1) rest

/-- EncryptionManager::Encrypt: byte-wise XOR with the repeating 32-byte key. -/
def EncryptionManager.Encrypt (key : Fin 32 → Byte) (data : List Byte) : List Byte :=
  encryptFrom key 0 data

/-- EncryptionManager::Decrypt: the source returns Encrypt(data). -/
def EncryptionManager.Decrypt (key : Fin 32 → Byte) (data : List Byte) : List Byte :=
  EncryptionManager.Encrypt key data

/-! ## Control plane: RemoteDesktopServer::ExecuteCommand -/

/-- C++ string literals as lists of characters. -/
def str (s : String) : List Char := s.toList

/-- std::to_string of a natural number. -/
def natToStr (n : Nat) : List Char := Nat.toDigits 10 n

/-- std::to_string of an int. -/
def intToStr (v : Int) : List Char :=
  if v < 0 then Char.ofNat 45 :: natToStr v.natAbs else natToStr v.natAbs

/-- "true" or "false", as built by the C++ ternary expressions. -/
def boolStr (b : Bool) : List Char := if b then str "true" else str "false"

/-- isspace in the C locale: space or one of \t \n \v \f \r. -/
def isSpaceC (c : Char) : Bool := c.toNat = 32 || (9 ≤ c.toNat && c.toNat ≤ 13)

/-- isdigit. -/
def isDigitC (c : Char) : Bool := 48 ≤ c.toNat && c.toNat ≤ 57

/-- std::stoi: skip leading whitespace, optional sign, then base-10
digits; no conversion (std::invalid_argument) and int overflow
(std::out_of_range) both surface as exceptions in the caller, so both
are modelled as none. -/
def stoiC (s : List Char) : Option Int :=
  let s1 := s.dropWhile isSpaceC
  let signed : Bool × List Char :=
    match s1 with
    | c :: rest => if c = Char.ofNat 45 then (true, rest)
                   else if c = Char.ofNat 43 then (false, rest)
                   else (false, s1)
    | [] => (false, s1)
  let digits := signed.2.takeWhile isDigitC
  if digits.isEmpty then none
  else
    let mag : Nat := digits.foldl (fun a c => a * 10 + (c.toNat - 48)) 0
    let v : Int := if signed.1 then -(mag : Int) else (mag : Int)
    if v < -2147483648 ∨ 2147483647 < v then none else some v

/-- The server state touched by ExecuteCommand: the _running flag, the
configured _port, the session table (session ids) and the success of
NetworkManager::Start, which abstracts the socket calls made by
RemoteDesktopServer::Start. -/
structure ServerState where
  running : Bool
  port : Int
  sessions : List (List Char)
  netStartOk : Bool
deriving DecidableEq, Repr

/-- RemoteDesktopServer::Start: returns false if already running or if
the network manager fails to start, otherwise sets _running. -/
def serverStart (st : ServerState) : Bool × ServerState :=
  if st.running then (false, st)
  else if st.netStartOk then (true, { st with running := true })
  else (false, st)

/-- RemoteDesktopServer::Stop: returns early if not running, otherwise
clears _running, stops every session and clears the session table. -/
def serverStop (st : ServerState) : ServerState :=
  if st.running then { st with running := false, sessions := [] } else st

/-- RemoteDesktopServer::RemoveSession: removes the named session from
the table, returning whether it was found. -/
def removeSession (st : ServerState) (id : List Char) : Bool × ServerState :=
  if id ∈ st.sessions then (true, { st with sessions := st.sessions.erase id })
  else (false, st)

/-- The status JSON built for the "status" command. -/
def statusJson (st : ServerState) : List Char :=
  str "\x7b \"running\": " ++ boolStr st.running ++
  str ", \"port\": " ++ intToStr st.port ++
  str ", \"sessions\": " ++ natToStr st.sessions.length ++ str " \x7d"

/-- The session list JSON built for the "list_sessions" command. -/
def listSessionsJson (st : ServerState) : List Char :=
  str "\x7b \"sessions\": [" ++
  (List.intersperse (str ",")
    (st.sessions.map (fun id => str "\x7b \"id\": \"" ++ id ++ str "\" \x7d"))).flatten ++
  str "] \x7d"

/-- The fixed response for unrecognized commands. -/
def unknownResponse : List Char :=
  str "\x7b \"success\": false, \"message\": \"Unknown command\" \x7d"

/-- The string dispatch of RemoteDesktopServer::ExecuteCommand
(RemoteDesktopServer.cpp lines 1354-1415): the command text is compared
against "status", "start", "stop", a "setport: " prefix
(cmd.compare(0, 9, ...)), "list_sessions" and a "disconnect_session:"
prefix compared with count 16 (cmd.compare(0, 16, ...)), in that order;
anything else yields the Unknown-command response.  Returns the result
string and the updated server state. -/
def executeCommandStr (st : ServerState) (cmd : List Char) : List Char × ServerState :=
  if cmd = str "status" then (statusJson st, st)
  else if cmd = str "start" then
    if st.running then
      (str "\x7b \"success\": false, \"message\": \"Server already running\" \x7d", st)
    else
      let r := serverStart st
      (str "\x7b \"success\": " ++ boolStr r.1 ++ str ", \"message\": \"" ++
        (if r.1 then str "Server started" else str "Failed to start server") ++
        str "\" \x7d", r.2)
  else if cmd = str "stop" then
    if st.running then
      (str "\x7b \"success\": true, \"message\": \"Server stopped\" \x7d", serverStop st)
    else
      (str "\x7b \"success\": false, \"message\": \"Server not running\" \x7d", st)
  else if cmd.take 9 = str "setport: " then
    match stoiC (cmd.drop 9) with
    | some newPort =>
      if 0 < newPort ∧ newPort < 65536 then
        (str "\x7b \"success\": true, \"message\": \"Port set to " ++ intToStr newPort ++
          str "\" \x7d", { st with port := newPort })
      else
        (str "\x7b \"success\": false, \"message\": \"Invalid port number\" \x7d", st)
    | none =>
      (str "\x7b \"success\": false, \"message\": \"Invalid port format\" \x7d", st)
  else if cmd = str "list_sessions" then (listSessionsJson st, st)
  else if cmd.take 16 = str "disconnect_session:" then
    let r := removeSession st (cmd.drop 16)
    (str "\x7b \"success\": " ++ boolStr r.1 ++ str ", \"message\": \"" ++
      (if r.1 then str "Session disconnected" else str "Session not found") ++
      str "\" \x7d", r.2)
  else (unknownResponse, st)

/-- strncpy(dst, src, count): writes exactly count bytes at dst -
min(count, len src) copied characters, the rest null padding; bytes of
dst past count are untouched. -/
def strncpyBuf (dst src : List Char) (count : Nat) : List Char :=
  (src.take count ++ List.replicate (count - src.length) (Char.ofNat 0)) ++ dst.drop count

/-- RemoteDesktopServer::ExecuteCommand(const char*, char*, int): null
command, null response or responseSize <= 0 return false without
touching the response buffer; otherwise the result string is
strncpy-ed into the buffer with count responseSize - 1 and
response[responseSize - 1] is set to the null character, and the call
returns true.  The Option arguments model the two pointers (none =
null); the returned list is the caller's buffer after the call. -/
def executeCommandC (st : ServerState) (command : Option (List Char))
    (response : Option (List Char)) (responseSize : Int) :
    Bool × Option (List Char) × ServerState :=
  match command, response with
  | none, r => (false, r, st)
  | some _, none => (false, none, st)
  | some cmd, some buf =>
    if responseSize ≤ 0 then (false, some buf, st)
    else
      let r := executeCommandStr st cmd
      let n := responseSize.toNat
      let buf1 := strncpyBuf buf r.1 (n - 1)
      (true, some (buf1.set (n - 1) (Char.ofNat 0)), r.2)

/-! ## Session lifecycle -/

/-- The Session state touched by Start and Stop: the _running flag, the
two loop threads (modelled by whether each has been spawned and not yet
joined), the peer socket handle and whether it is still open. -/
structure SessionState where
  running : Bool
  screenThread : Bool
  inputThread : Bool
  peerSocket : Int
  socketOpen : Bool
deriving DecidableEq, Repr

/-- Session::Session(int clientSocket): _running starts false, no loop
threads exist, the peer socket is owned and open. -/
def SessionState.new (clientSocket : Int) : SessionState :=
  { running := false, screenThread := false, inputThread := false,
    peerSocket := clientSocket, socketOpen := true }

/-- Session::Start: returns false if already running, otherwise sets
_running and spawns the screen-capture and input-processing threads. -/
def SessionState.Start (s : SessionState) : Bool × SessionState :=
  if s.running then (false, s)
  else (true, { s with running := true, screenThread := true, inputThread := true })

/-- Session::Stop: returns early if not running; otherwise clears
_running, joins both loop threads and closes the peer socket. -/
def SessionState.Stop (s : SessionState) : SessionState :=
  if s.running then
    { s with
      running := false, screenThread := false, inputThread := false,
      socketOpen := false }
  else s

/-! ## IPC broker: IPCBroker (src/AgentCore/IPC/IPCFramework.cpp) -/

/-- The IPC message (IPCFramework.h struct Message).  The MessageType
enum REGISTER..DATA is stored as a small number. -/
structure IPCMessage where
  id : String
  sourceModule : String
  targetModule : String
  type : Fin 7
  payload : String
  correlationId : String
deriving DecidableEq, Repr

/-- The broker's state: the _running flag, the processing thread, the
message queue, the per-module handler registry (handlers identified by
number, in registration order) and the module registry. -/
structure BrokerState where
  running : Bool
  threadActive : Bool
  queue : List IPCMessage
  handlers : List (String × List Nat)
  registeredModules : List String
deriving DecidableEq, Repr

/-- IPCBroker::Start: returns true immediately if already running,
otherwise sets _running and spawns the processing thread. -/
def BrokerState.Start (st : BrokerState) : Bool × BrokerState :=
  if st.running then (true, st)
  else (true, { st with running := true, threadActive := true })

/-- IPCBroker::Stop: returns early if not running; otherwise clears
_running, joins the processing thread and clears the queue, the handler
registry and the module registry. -/
def BrokerState.Stop (st : BrokerState) : BrokerState :=
  if st.running then
    { running := false, threadActive := false, queue := [], handlers := [],
      registeredModules := [] }
  else st

/-- IPCBroker::RegisterModule: fails if the name is already present,
otherwise appends it to the registry. -/
def BrokerState.RegisterModule (st : BrokerState) (name : String) : Bool × BrokerState :=
  if name ∈ st.registeredModules then (false, st)
  else (true, { st with registeredModules := st.registeredModules ++ [name] })

/-- IPCBroker::RegisterHandler: appends the handler to
_handlers[moduleName] (std::map operator[] creates the entry when
absent).  Handlers are identified by number. -/
def addHandler (hs : List (String × List Nat)) (m : String) (h : Nat) :
    List (String × List Nat) :=
  match hs with
  | [] => [(m, [h])]
  | (k, l) :: rest => if k = m then (k, l ++ [h]) :: rest else (k, l) :: addHandler rest m h

/-- The handlers registered under a module name (empty when the name has
no entry in the handler map). -/
def handlersFor (hs : List (String × List Nat)) (m : String) : List Nat :=
  match hs.find? (fun p => p.1 == m) with
  | some p => p.2
  | none => []

/-- IPCBroker::SendMessage: fails when the broker is not running or when
the source module is empty, otherwise enqueues the message. -/
def BrokerState.SendMessage (st : BrokerState) (msg : IPCMessage) : Bool × BrokerState :=
  if st.running then
    if msg.sourceModule = "" then (false, st)
    else (true, { st with queue := st.queue ++ [msg] })
  else (false, st)

/-- The target-module list computed by IPCBroker::ProcessMessages for
one dequeued message: all registered modules minus the source when the
target is empty (broadcast), else the single named target. -/
def dispatchTargets (st : BrokerState) (msg : IPCMessage) : List String :=
  if msg.targetModule = "" then
    st.registeredModules.filter (fun m => m != msg.sourceModule)
  else [msg.targetModule]

/-- The handler invocations performed by IPCBroker::ProcessMessages for
one dequeued message: for each target module, every handler found under
that name in the handler map, in order.  Each element is the (module,
handler) pair invoked with the message. -/
def dispatchDeliveries (st : BrokerState) (msg : IPCMessage) : List (String × Nat) :=
  (dispatchTargets st msg).flatMap (fun m => (handlersFor st.handlers m).map (fun h => (m, h)))

/-! ## Helper lemmas -/

lemma bxor_bxor (a k : Byte) : bxor (bxor a k) k = a := by
  apply Fin.ext
  simp only [bxor]
  exact Nat.xor_cancel_right k.val a.val

lemma encryptFrom_encryptFrom (key : Fin 32 → Byte) :
    ∀ (i : Nat) (data : List Byte), encryptFrom key i (encryptFrom key i data) = data := by
  intro i data
  induction data generalizing i with
  | nil => rfl
  | cons b rest ih => simp [encryptFrom, bxor_bxor, ih]

lemma encryptFrom_length (key : Fin 32 → Byte) :
    ∀ (i : Nat) (data : List Byte), (encryptFrom key i data).length = data.length := by
  intro i data
  induction data generalizing i with
  | nil => rfl
  | cons b rest ih => simp [encryptFrom, ih]

/-! ## Claim theorems -/

/-- C3: For every 32-byte key and every byte sequence x,
Decrypt(Encrypt(x, k), k) = x (the XOR cipher is an involution), and
Encrypt is length-preserving. -/
theorem cipher_involution_and_length (key : Fin 32 → Byte) (x : List Byte) :
    EncryptionManager.Decrypt key (EncryptionManager.Encrypt key x) = x ∧
    (EncryptionManager.Encrypt key x).length = x.length := by
  constructor
  · exact encryptFrom_encryptFrom key 0 x
  · exact encryptFrom_length key 0 x

/-- C8: Session::Stop on a freshly constructed session (Start never
called) leaves the state, including the peer socket, unchanged; and
Session::Start on a running session returns false with the state
unchanged, so no duplicate loop threads are spawned. -/
theorem session_stop_noop_and_start_once :
    (∀ sock : Int, SessionState.Stop (SessionState.new sock) = SessionState.new sock) ∧
    (∀ s : SessionState, s.running = true → SessionState.Start s = (false, s)) := by
  constructor
  · intro sock
    simp [SessionState.Stop, SessionState.new]
  · intro s h
    simp [SessionState.Start, h]

/-- Witness for C8: the concrete session on socket 5 - Stop before
Start is the identity, and a second Start after a successful first
Start returns false without changing the state. -/
theorem session_stop_noop_and_start_once_witness :
    SessionState.Stop (SessionState.new 5) = SessionState.new 5 ∧
    SessionState.Start ((SessionState.new 5).Start.2) =
      (false, (SessionState.new 5).Start.2) :=
  ⟨session_stop_noop_and_start_once.1 5,
   session_stop_noop_and_start_once.2 ((SessionState.new 5).Start.2) (by decide)⟩

/-- C10: IPCBroker::Start while already running returns true and leaves
the broker state (thread, queue, handler registry, module registry)
unchanged; IPCBroker::Stop while not running is a no-op. -/
theorem broker_start_stop_guards :
    (∀ st : BrokerState, st.running = true → BrokerState.Start st = (true, st)) ∧
    (∀ st : BrokerState, st.running = false → BrokerState.Stop st = st) := by
  constructor
  · intro st h
    simp [BrokerState.Start, h]
  · intro st h
    simp [BrokerState.Stop, h]

/-- Witness for C10: a concrete running broker state is unchanged by
Start, and a concrete stopped broker state with a nonempty queue,
handler registry and module registry is unchanged by Stop. -/
theorem broker_start_stop_guards_witness :
    BrokerState.Start ⟨true, true, [], [], ["A"]⟩ = (true, ⟨true, true, [], [], ["A"]⟩) ∧
    BrokerState.Stop ⟨false, false, [], [("A", [0])], ["A"]⟩ =
      ⟨false, false, [], [("A", [0])], ["A"]⟩ :=
  ⟨broker_start_stop_guards.1 ⟨true, true, [], [], ["A"]⟩ (by decide),
   broker_start_stop_guards.2 ⟨false, false, [], [("A", [0])], ["A"]⟩ (by decide)⟩

lemma length_filterNe_of_mem_nodup (l : List String) (s : String)
    (hnd : l.Nodup) (hm : s ∈ l) :
    (l.filter (fun m => m != s)).length = l.length - 1 := by
  rw [← List.Nodup.erase_eq_filter hnd s]
  exact List.length_erase_of_mem hm

lemma length_filterNe_of_not_mem (l : List String) (s : String) (hm : s ∉ l) :
    (l.filter (fun m => m != s)).length = l.length := by
  have : l.filter (fun m => m != s) = l :=
    List.filter_eq_self.mpr (fun b hb => by
      simp only [bne_iff_ne, ne_eq]
      intro hbs
      exact hm (hbs ▸ hb))
  rw [this]

/-- C6 (amended): for a published message with a non-empty target, the
broker's dispatch invokes exactly the handlers registered (via
RegisterHandler) under the target module name, in order, and no other
module's handlers; in particular the message is silently dropped (no
handler runs) precisely when no handlers are registered under that
name.  The module registry is not consulted for unicast delivery. -/
theorem broker_unicast_delivers_to_target_handlers (st : BrokerState) (msg : IPCMessage)
    (h : msg.targetModule ≠ "") :
    dispatchDeliveries st msg =
      (handlersFor st.handlers msg.targetModule).map (fun hId => (msg.targetModule, hId)) ∧
    (∀ m hId, (m, hId) ∈ dispatchDeliveries st msg → m = msg.targetModule) := by
  constructor
  · simp [dispatchDeliveries, dispatchTargets, h]
  · intro m hId hmem
    simp only [dispatchDeliveries, dispatchTargets, if_neg h, List.flatMap_cons,
      List.flatMap_nil, List.append_nil, List.mem_map] at hmem
    obtain ⟨a, _, ha⟩ := hmem
    exact (Prod.mk.injEq _ _ _ _ ▸ ha).1.symm

/-- Witness for C6: in a broker state with handlers 3 and 4 registered
under module B and handler 9 under module C, a message targeted at B is
delivered to exactly B's two handlers. -/
theorem broker_unicast_delivers_to_target_handlers_witness :
    dispatchDeliveries ⟨true, true, [], [("B", [3, 4]), ("C", [9])], ["B", "C"]⟩
        ⟨"1", "A", "B", ⟨2, by norm_num⟩, "p", ""⟩ =
      [("B", 3), ("B", 4)] := by
  have h := (broker_unicast_delivers_to_target_handlers
    ⟨true, true, [], [("B", [3, 4]), ("C", [9])], ["B", "C"]⟩
    ⟨"1", "A", "B", ⟨2, by norm_num⟩, "p", ""⟩ (by decide)).1
  rw [h]
  decide

/-- Counterexample for C6 as stated: delivery does not require the
target module to be registered in the module registry.  In a broker
state whose module registry is empty but whose handler map has handler
0 under the name X, a message targeted at X is publishable and is
delivered to that handler rather than being dropped. -/
theorem broker_unicast_unregistered_still_delivered :
    (BrokerState.SendMessage ⟨true, true, [], [("X", [0])], []⟩
        ⟨"1", "S", "X", ⟨2, by norm_num⟩, "p", ""⟩).1 = true ∧
    "X" ∉ (⟨true, true, [], [("X", [0])], []⟩ : BrokerState).registeredModules ∧
    dispatchDeliveries ⟨true, true, [], [("X", [0])], []⟩
        ⟨"1", "S", "X", ⟨2, by norm_num⟩, "p", ""⟩ = [("X", 0)] := by
  refine ⟨by decide, by decide, by decide⟩

/-- C7 (amended): for a published message with an empty target, the
dispatch targets are exactly the registered modules other than the
source; no handler invocation goes to the source module; and the number
of targeted modules is registeredModules - 1 when the source module is
itself registered (0 when it is the only one), but equals
registeredModules when the source is not registered.  Each targeted
module receives the message through the handlers registered under its
name. -/
theorem broker_broadcast_targets (st : BrokerState) (msg : IPCMessage)
    (ht : msg.targetModule = "") (hnd : st.registeredModules.Nodup) :
    (∀ m, m ∈ dispatchTargets st msg ↔ m ∈ st.registeredModules ∧ m ≠ msg.sourceModule) ∧
    (∀ hId, (msg.sourceModule, hId) ∉ dispatchDeliveries st msg) ∧
    (msg.sourceModule ∈ st.registeredModules →
      (dispatchTargets st msg).length = st.registeredModules.length - 1) ∧
    (msg.sourceModule ∉ st.registeredModules →
      (dispatchTargets st msg).length = st.registeredModules.length) := by
  refine ⟨?_, ?_, ?_, ?_⟩
  · intro m
    simp [dispatchTargets, ht, List.mem_filter]
  · intro hId hmem
    simp only [dispatchDeliveries, List.mem_flatMap, List.mem_map] at hmem
    obtain ⟨m, hm, a, _, ha⟩ := hmem
    have hms : m = msg.sourceModule := ((Prod.mk.injEq _ _ _ _).mp ha).1
    rw [dispatchTargets, if_pos ht] at hm
    have hms2 := List.of_mem_filter hm
    rw [hms] at hms2
    simp [bne_iff_ne] at hms2
  · intro hmem
    simp only [dispatchTargets, if_pos ht]
    exact length_filterNe_of_mem_nodup _ _ hnd hmem
  · intro hmem
    simp only [dispatchTargets, if_pos ht]
    exact length_filterNe_of_not_mem _ _ hmem

/-- Witness for C7: with modules A, B, C registered and a broadcast from
B, the dispatch targets are A and C - two modules, registered count
minus one - and none of B's handlers are invoked. -/
theorem broker_broadcast_targets_witness :
    dispatchTargets ⟨true, true, [], [("A", [1]), ("B", [2]), ("C", [3])], ["A", "B", "C"]⟩
        ⟨"1", "B", "", ⟨4, by norm_num⟩, "p", ""⟩ = ["A", "C"] ∧
    (dispatchTargets ⟨true, true, [], [("A", [1]), ("B", [2]), ("C", [3])], ["A", "B", "C"]⟩
        ⟨"1", "B", "", ⟨4, by norm_num⟩, "p", ""⟩).length = 3 - 1 ∧
    ("B", 2) ∉ dispatchDeliveries ⟨true, true, [], [("A", [1]), ("B", [2]), ("C", [3])], ["A", "B", "C"]⟩
        ⟨"1", "B", "", ⟨4, by norm_num⟩, "p", ""⟩ := by
  refine ⟨by decide, ?_, ?_⟩
  · exact (broker_broadcast_targets
      ⟨true, true, [], [("A", [1]), ("B", [2]), ("C", [3])], ["A", "B", "C"]⟩
      ⟨"1", "B", "", ⟨4, by norm_num⟩, "p", ""⟩ (by decide) (by decide)).2.2.1 (by decide)
  · exact (broker_broadcast_targets
      ⟨true, true, [], [("A", [1]), ("B", [2]), ("C", [3])], ["A", "B", "C"]⟩
      ⟨"1", "B", "", ⟨4, by norm_num⟩, "p", ""⟩ (by decide) (by decide)).2.1 2

/-- Counterexample for C7 as stated: when the (non-empty) source module
of a broadcast is not itself registered, the delivery count equals the
number of registered modules, not registeredModules - 1.  With one
registered module A holding handler 7 and a publishable broadcast from
the unregistered module B, one module is delivered to, yet the claim
demands 1 - 1 = 0. -/
theorem broker_broadcast_count_counterexample :
    (BrokerState.SendMessage ⟨true, true, [], [("A", [7])], ["A"]⟩
        ⟨"1", "B", "", ⟨4, by norm_num⟩, "p", ""⟩).1 = true ∧
    dispatchDeliveries ⟨true, true, [], [("A", [7])], ["A"]⟩
        ⟨"1", "B", "", ⟨4, by norm_num⟩, "p", ""⟩ = [("A", 7)] ∧
    ¬ (dispatchTargets ⟨true, true, [], [("A", [7])], ["A"]⟩
        ⟨"1", "B", "", ⟨4, by norm_num⟩, "p", ""⟩).length =
      (⟨true, true, [], [("A", [7])], ["A"]⟩ : BrokerState).registeredModules.length - 1 := by
  refine ⟨by decide, by decide, by decide⟩

lemma take16_ne_disconnect (cmd : List Char) :
    cmd.take 16 ≠ str "disconnect_session:" := by
  intro h
  have hlen := congrArg List.length h
  rw [List.length_take] at hlen
  have h19 : (str "disconnect_session:").length = 19 := by decide
  rw [h19] at hlen
  omega

/-- C4: the control-plane string "disconnect_session:<id>" is never
recognized - cmd.compare(0, 16, "disconnect_session:") compares a
16-character prefix against the 19-character literal and can never
return 0, so every such command falls through to the Unknown-command
response and the session table is left untouched. -/
theorem disconnect_session_cmd_yields_unknown (st : ServerState) (id : List Char) :
    executeCommandStr st (str "disconnect_session:" ++ id) = (unknownResponse, st) := by
  have hpre : (str "disconnect_session:").length = 19 := by decide
  have hne : ∀ t : List Char, t.length < 19 →
      str "disconnect_session:" ++ id ≠ t := by
    intro t hlen he
    rw [← he, List.length_append, hpre] at hlen
    omega
  have h9 : (str "disconnect_session:" ++ id).take 9 = str "disconnec" := by
    rw [List.take_append_of_le_length (by rw [hpre]; omega)]
    decide
  rw [executeCommandStr]
  rw [if_neg (hne (str "status") (by decide)), if_neg (hne (str "start") (by decide)),
    if_neg (hne (str "stop") (by decide))]
  rw [if_neg (by rw [h9]; decide), if_neg (hne (str "list_sessions") (by decide)),
    if_neg (take16_ne_disconnect _)]

/-- C4, the code evaluated at the failing input: with session
id abc present in the table, the command disconnect_session:abc yields
the Unknown-command response and does not remove the session. -/
theorem disconnect_session_cmd_concrete :
    executeCommandStr ⟨true, 8080, [str "abc"], true⟩ (str "disconnect_session:abc") =
      (unknownResponse, ⟨true, 8080, [str "abc"], true⟩) := by
  have h := disconnect_session_cmd_yields_unknown ⟨true, 8080, [str "abc"], true⟩ (str "abc")
  have harg : str "disconnect_session:" ++ str "abc" = str "disconnect_session:abc" := by decide
  rw [harg] at h
  exact h

/-- C5 (amended): every command distinct from "status", "start",
"stop", "list_sessions" and not beginning with the 9 characters
"setport: " yields exactly the response
\x7b "success": false, "message": "Unknown command" \x7d (with the
spaces the source writes) and leaves the server state unchanged.
Commands beginning with "setport: " whose remainder is not a valid
port number are answered by the setport branch instead ("Invalid port
format" / "Invalid port number"), not by the Unknown-command
response. -/
theorem unknown_command_response (st : ServerState) (cmd : List Char)
    (h1 : cmd ≠ str "status") (h2 : cmd ≠ str "start") (h3 : cmd ≠ str "stop")
    (h4 : cmd.take 9 ≠ str "setport: ") (h5 : cmd ≠ str "list_sessions") :
    executeCommandStr st cmd = (unknownResponse, st) := by
  rw [executeCommandStr, if_neg h1, if_neg h2, if_neg h3, if_neg h4, if_neg h5,
    if_neg (take16_ne_disconnect cmd)]

/-- Witness for C5: the concrete unrecognized command "restart" on a
concrete state yields the Unknown-command response. -/
theorem unknown_command_response_witness :
    executeCommandStr ⟨true, 8080, [], true⟩ (str "restart") =
      (unknownResponse, ⟨true, 8080, [], true⟩) :=
  unknown_command_response ⟨true, 8080, [], true⟩ (str "restart")
    (by decide) (by decide) (by decide) (by decide) (by decide)

/-- Counterexample for C5 as stated: "setport: abc" is not one of the
recognized control-plane commands (its argument is not a port number),
yet ExecuteCommand answers with "Invalid port format", not with the
Unknown-command response. -/
theorem setport_garbage_not_unknown :
    (executeCommandStr ⟨false, 8080, [], true⟩ (str "setport: abc")).1 =
      str "\x7b \"success\": false, \"message\": \"Invalid port format\" \x7d" ∧
    (executeCommandStr ⟨false, 8080, [], true⟩ (str "setport: abc")).1 ≠ unknownResponse := by
  refine ⟨by decide, by decide⟩

lemma set_append_length (w : List Char) (b : Char) (bs : List Char) (c : Char) :
    (w ++ b :: bs).set w.length c = w ++ c :: bs := by
  induction w with
  | nil => rfl
  | cons a rest ih => simp [List.set, ih]

lemma getD_append_length (w : List Char) (c : Char) (bs : List Char) (d : Char) :
    (w ++ c :: bs).getD w.length d = c := by
  induction w with
  | nil => rfl
  | cons a rest ih => simpa using ih

lemma drop_append_cons (w : List Char) (c : Char) (bs : List Char) :
    (w ++ c :: bs).drop (w.length + 1) = bs := by
  induction w with
  | nil => rfl
  | cons a rest ih => simp [ih]

lemma strncpy_write_length (src : List Char) (count : Nat) :
    (src.take count ++ List.replicate (count - src.length) (Char.ofNat 0)).length = count := by
  simp [List.length_take]
  omega

/-- C9: ExecuteCommand(command, response, responseSize) returns false
without touching the response buffer when command or response is null
or responseSize <= 0; otherwise it returns true, writes only the first
responseSize bytes of the caller's buffer (bytes from index
responseSize on are unchanged, the buffer length is preserved) and the
byte at index responseSize - 1 is the null terminator. -/
theorem executeCommand_buffer_safety (st : ServerState) (cmd buf : List Char) (rs : Int) :
    (executeCommandC st none (some buf) rs = (false, some buf, st)) ∧
    (executeCommandC st (some cmd) none rs = (false, none, st)) ∧
    (rs ≤ 0 → executeCommandC st (some cmd) (some buf) rs = (false, some buf, st)) ∧
    (0 < rs → rs.toNat ≤ buf.length →
      ∃ out st2, executeCommandC st (some cmd) (some buf) rs = (true, some out, st2) ∧
        out.length = buf.length ∧
        out.drop rs.toNat = buf.drop rs.toNat ∧
        out.getD (rs.toNat - 1) (Char.ofNat 88) = Char.ofNat 0) := by
  refine ⟨rfl, rfl, ?_, ?_⟩
  · intro h
    simp [executeCommandC, h]
  · intro hpos hle
    have hrs : ¬ rs ≤ 0 := by omega
    have hn1 : 1 ≤ rs.toNat := by omega
    set n := rs.toNat with hn
    set r := executeCommandStr st cmd with hr
    set w : List Char :=
      r.1.take (n - 1) ++ List.replicate ((n - 1) - r.1.length) (Char.ofNat 0) with hwdef
    have hw : w.length = n - 1 := strncpy_write_length r.1 (n - 1)
    have hdlen : (buf.drop (n - 1)).length = buf.length - (n - 1) := List.length_drop _ _
    have hne : buf.drop (n - 1) ≠ [] := by
      intro hnil
      rw [hnil] at hdlen
      simp at hdlen
      omega
    obtain ⟨b, bs, hb⟩ := List.exists_cons_of_ne_nil hne
    have hout : executeCommandC st (some cmd) (some buf) rs =
        (true, some ((w ++ (b :: bs)).set (n - 1) (Char.ofNat 0)), r.2) := by
      simp only [executeCommandC, if_neg hrs, strncpyBuf]
      rw [← hn, ← hr, ← hwdef, ← hb]
    rw [← hw] at hout
    rw [set_append_length] at hout
    refine ⟨w ++ Char.ofNat 0 :: bs, r.2, hout, ?_, ?_, ?_⟩
    · have hblen : (b :: bs).length = buf.length - (n - 1) := hb ▸ hdlen
      simp only [List.length_append, List.length_cons, hw]
      simp only [List.length_cons] at hblen
      omega
    · have h1 : (w ++ Char.ofNat 0 :: bs).drop (w.length + 1) = bs := drop_append_cons _ _ _
      rw [hw] at h1
      have h2 : n - 1 + 1 = n := by omega
      rw [h2] at h1
      rw [h1]
      have h3 : buf.drop n = (buf.drop (n - 1)).drop 1 := by
        rw [List.drop_drop]
        congr 1
        omega
      rw [h3, hb]
      rfl
    · have h4 : (w ++ Char.ofNat 0 :: bs).getD w.length (Char.ofNat 88) = Char.ofNat 0 :=
        getD_append_length _ _ _ _
      rw [hw] at h4
      exact h4

/-- Witness for C9: the concrete call with command "status", an
8-character buffer and responseSize 4 - the returned buffer keeps its
length, bytes 4..7 are untouched and byte 3 is the null terminator. -/
theorem executeCommand_buffer_safety_witness :
    (0 : Int) < 4 ∧ (4 : Int).toNat ≤ (str "YYYYYYYY").length ∧
    ∃ out st2,
      executeCommandC ⟨false, 8080, [], true⟩ (some (str "status")) (some (str "YYYYYYYY")) 4 =
        (true, some out, st2) ∧
      out.length = (str "YYYYYYYY").length ∧
      out.drop (4 : Int).toNat = (str "YYYYYYYY").drop (4 : Int).toNat ∧
      out.getD ((4 : Int).toNat - 1) (Char.ofNat 88) = Char.ofNat 0 :=
  ⟨by decide, by decide,
   (executeCommand_buffer_safety ⟨false, 8080, [], true⟩ (str "status")
     (str "YYYYYYYY") 4).2.2.2 (by decide) (by decide)⟩

lemma deserialize_success_eq (data : List Byte)
    (h : 17 + declaredSourceLen data + declaredTargetLen data + declaredContentLen data ≤
      data.length) :
    SerializableMessage.Deserialize data =
      { type := data.getD 0 0
        source := (data.drop 17).take (declaredSourceLen data)
        target := (data.drop (17 + declaredSourceLen data)).take (declaredTargetLen data)
        content := (data.drop (17 + declaredSourceLen data + declaredTargetLen data)).take
          (declaredContentLen data)
        timestamp := declaredTimestamp data } := by
  simp only [SerializableMessage.Deserialize]
  rw [if_neg (by omega), if_neg (by omega)]

lemma declared_append (data ext : List Byte) (h : 17 ≤ data.length) :
    declaredSourceLen (data ++ ext) = declaredSourceLen data ∧
    declaredTargetLen (data ++ ext) = declaredTargetLen data ∧
    declaredContentLen (data ++ ext) = declaredContentLen data ∧
    declaredTimestamp (data ++ ext) = declaredTimestamp data ∧
    (data ++ ext).getD 0 0 = data.getD 0 0 := by
  have g : ∀ i : Nat, i < 17 → (data ++ ext).getD i 0 = data.getD i 0 := by
    intro i hi
    exact List.getD_append data ext 0 i (by omega)
  refine ⟨?_, ?_, ?_, ?_, ?_⟩
  · simp only [declaredSourceLen, g 1 (by omega), g 2 (by omega)]
  · simp only [declaredTargetLen, g 3 (by omega), g 4 (by omega)]
  · simp only [declaredContentLen, g 5 (by omega), g 6 (by omega), g 7 (by omega),
      g 8 (by omega)]
  · simp only [declaredTimestamp, g 9 (by omega), g 10 (by omega), g 11 (by omega),
      g 12 (by omega), g 13 (by omega), g 14 (by omega), g 15 (by omega), g 16 (by omega)]
  · exact g 0 (by omega)

/-- C1 (amended): Deserialize is total and never reads past the
supplied buffer, but it does not return an error kind - when fewer
than 17 header bytes are present, and likewise when the declared total
length 17 + sourceLen + targetLen + contentLen exceeds the available
bytes, it returns the default-constructed message (type UNDEFINED,
empty fields, zero timestamp), indistinguishable from a successfully
decoded default frame; otherwise it succeeds by slicing source, target
and content at the declared offsets, and its result is unchanged by any
bytes beyond the declared total length. -/
theorem deserialize_cases (data : List Byte) :
    (data.length < 17 →
      SerializableMessage.Deserialize data = SerializableMessage.defaultMsg) ∧
    (17 ≤ data.length →
      data.length < 17 + declaredSourceLen data + declaredTargetLen data +
        declaredContentLen data →
      SerializableMessage.Deserialize data = SerializableMessage.defaultMsg) ∧
    (17 + declaredSourceLen data + declaredTargetLen data + declaredContentLen data ≤
        data.length →
      SerializableMessage.Deserialize data =
        { type := data.getD 0 0
          source := (data.drop 17).take (declaredSourceLen data)
          target := (data.drop (17 + declaredSourceLen data)).take (declaredTargetLen data)
          content := (data.drop (17 + declaredSourceLen data + declaredTargetLen data)).take
            (declaredContentLen data)
          timestamp := declaredTimestamp data } ∧
      ∀ ext : List Byte,
        SerializableMessage.Deserialize (data ++ ext) =
          SerializableMessage.Deserialize data) := by
  refine ⟨?_, ?_, ?_⟩
  · intro h
    simp [SerializableMessage.Deserialize, h]
  · intro h1 h2
    simp only [SerializableMessage.Deserialize]
    rw [if_neg (by omega), if_pos h2]
  · intro h
    have h17 : 17 ≤ data.length := by omega
    refine ⟨deserialize_success_eq data h, ?_⟩
    intro ext
    obtain ⟨hs, ht, hc, hts, h0⟩ := declared_append data ext h17
    have hlen2 : 17 + declaredSourceLen (data ++ ext) + declaredTargetLen (data ++ ext) +
        declaredContentLen (data ++ ext) ≤ (data ++ ext).length := by
      rw [hs, ht, hc, List.length_append]
      omega
    rw [deserialize_success_eq (data ++ ext) hlen2, deserialize_success_eq data h]
    have hdlen : ∀ k : Nat, k ≤ data.length → (data ++ ext).drop k = data.drop k ++ ext :=
      fun k hk => List.drop_append_of_le_length hk
    have hslice : ∀ k t : Nat, k + t ≤ data.length →
        ((data ++ ext).drop k).take t = (data.drop k).take t := by
      intro k t hkt
      rw [hdlen k (by omega), List.take_append_of_le_length]
      rw [List.length_drop]
      omega
    rw [hs, ht, hc, hts, h0]
    congr 1
    · exact hslice 17 (declaredSourceLen data) (by omega)
    · exact hslice (17 + declaredSourceLen data) (declaredTargetLen data) (by omega)
    · exact hslice (17 + declaredSourceLen data + declaredTargetLen data)
        (declaredContentLen data) (by omega)

/-- Witness for C1: a concrete 18-byte buffer - one byte of declared
content plus one trailing byte - decodes to the sliced frame, the
slices being those of the success case, and an appended junk byte does
not change the result; a concrete 3-byte buffer decodes to the default
message. -/
theorem deserialize_cases_witness :
    SerializableMessage.Deserialize (List.map byteOf [1, 2, 3]) =
      SerializableMessage.defaultMsg ∧
    SerializableMessage.Deserialize
        (List.map byteOf [7, 0, 0, 0, 0, 1, 0, 0, 0, 9, 0, 0, 0, 0, 0, 0, 0, 42]) =
      { type := byteOf 7, source := [], target := [], content := [byteOf 42],
        timestamp := 9 } ∧
    SerializableMessage.Deserialize
        (List.map byteOf [7, 0, 0, 0, 0, 1, 0, 0, 0, 9, 0, 0, 0, 0, 0, 0, 0, 42] ++
          [byteOf 99]) =
      SerializableMessage.Deserialize
        (List.map byteOf [7, 0, 0, 0, 0, 1, 0, 0, 0, 9, 0, 0, 0, 0, 0, 0, 0, 42]) := by
  refine ⟨?_, ?_, ?_⟩
  · exact (deserialize_cases (List.map byteOf [1, 2, 3])).1 (by decide)
  · rw [(deserialize_cases _).2.2 (by decide) |>.1]
    decide
  · exact ((deserialize_cases _).2.2 (by decide)).2 [byteOf 99]

/-- Counterexample for C1 as stated: Deserialize returns no error kind.
On the empty input (fewer than 17 header bytes, Truncated per the
spec) and on a 17-byte header declaring one content byte that is not
present (Incomplete per the spec) it returns the same
default-constructed message that a well-formed default frame decodes
to, so truncated input, incomplete input and a successful decode are
indistinguishable to the caller. -/
theorem deserialize_no_error_kind :
    decodeSpec [] = Except.error FrameError.Truncated ∧
    decodeSpec (List.map byteOf [255, 0, 0, 0, 0, 1, 0, 0, 0, 0, 0, 0, 0, 0, 0, 0, 0]) =
      Except.error FrameError.Incomplete ∧
    SerializableMessage.Deserialize [] = SerializableMessage.defaultMsg ∧
    SerializableMessage.Deserialize
        (List.map byteOf [255, 0, 0, 0, 0, 1, 0, 0, 0, 0, 0, 0, 0, 0, 0, 0, 0]) =
      SerializableMessage.defaultMsg ∧
    SerializableMessage.Deserialize
        (SerializableMessage.Serialize SerializableMessage.defaultMsg) =
      SerializableMessage.defaultMsg := by
  refine ⟨rfl, rfl, by decide, by decide, by decide⟩

/-- C2: decoding the encoding of a valid frame yields the frame back.
Valid means the C++ field types hold their values exactly: source and
target lengths fit in 16 bits, the content length fits in 32 bits and
the timestamp fits in 64 bits.  No assumption on the type byte is
needed: every stored type value round-trips. -/
theorem serialize_roundtrip (m : SerializableMessage)
    (hs : m.source.length < 2 ^ 16) (ht : m.target.length < 2 ^ 16)
    (hc : m.content.length < 2 ^ 32) (hts : m.timestamp < 2 ^ 64) :
    SerializableMessage.Deserialize (SerializableMessage.Serialize m) = m := by
  obtain ⟨ty, s, t, c, ts⟩ := m
  have hs' : s.length < 2 ^ 16 := hs
  have ht' : t.length < 2 ^ 16 := ht
  have hc' : c.length < 2 ^ 32 := hc
  have hts' : ts < 2 ^ 64 := hts
  have hds : declaredSourceLen (SerializableMessage.Serialize ⟨ty, s, t, c, ts⟩) = s.length := by
    have e : declaredSourceLen (SerializableMessage.Serialize ⟨ty, s, t, c, ts⟩) =
        s.length % 256 + 256 * (s.length / 2 ^ 8 % 256) := rfl
    rw [e]
    omega
  have hdt : declaredTargetLen (SerializableMessage.Serialize ⟨ty, s, t, c, ts⟩) = t.length := by
    have e : declaredTargetLen (SerializableMessage.Serialize ⟨ty, s, t, c, ts⟩) =
        t.length % 256 + 256 * (t.length / 2 ^ 8 % 256) := rfl
    rw [e]
    omega
  have hdc : declaredContentLen (SerializableMessage.Serialize ⟨ty, s, t, c, ts⟩) = c.length := by
    have e : declaredContentLen (SerializableMessage.Serialize ⟨ty, s, t, c, ts⟩) =
        c.length % 256 + 256 * (c.length / 2 ^ 8 % 256) +
        65536 * (c.length / 2 ^ 16 % 256) + 16777216 * (c.length / 2 ^ 24 % 256) := rfl
    rw [e]
    omega
  have hdts : declaredTimestamp (SerializableMessage.Serialize ⟨ty, s, t, c, ts⟩) = ts := by
    have e : declaredTimestamp (SerializableMessage.Serialize ⟨ty, s, t, c, ts⟩) =
        ts % 256 + 2 ^ 8 * (ts / 2 ^ 8 % 256) + 2 ^ 16 * (ts / 2 ^ 16 % 256) +
        2 ^ 24 * (ts / 2 ^ 24 % 256) + 2 ^ 32 * (ts / 2 ^ 32 % 256) +
        2 ^ 40 * (ts / 2 ^ 40 % 256) + 2 ^ 48 * (ts / 2 ^ 48 % 256) +
        2 ^ 56 * (ts / 2 ^ 56 % 256) := rfl
    rw [e]
    omega
  have hL : (SerializableMessage.Serialize ⟨ty, s, t, c, ts⟩).length =
      17 + s.length + t.length + c.length := by
    simp [SerializableMessage.Serialize]
    omega
  have htail : (SerializableMessage.Serialize ⟨ty, s, t, c, ts⟩).drop 17 =
      s ++ t ++ c := rfl
  rw [deserialize_success_eq _ (by rw [hds, hdt, hdc, hL])]
  rw [hds, hdt, hdc, hdts]
  simp only [SerializableMessage.mk.injEq]
  refine ⟨rfl, ?_, ?_, ?_, trivial⟩
  · rw [htail, List.append_assoc]
    exact List.take_left s (t ++ c)
  · have hd2 : (SerializableMessage.Serialize ⟨ty, s, t, c, ts⟩).drop (17 + s.length) =
        t ++ c := by
      rw [← List.drop_drop s.length 17, htail, List.append_assoc]
      exact List.drop_left s (t ++ c)
    rw [hd2]
    exact List.take_left t c
  · have hd3 : (SerializableMessage.Serialize ⟨ty, s, t, c, ts⟩).drop
        (17 + s.length + t.length) = c := by
      rw [← List.drop_drop t.length (17 + s.length), ← List.drop_drop s.length 17, htail,
        List.append_assoc, List.drop_left s (t ++ c), List.drop_left t c]
    rw [hd3]
    exact List.take_length c

/-- Witness for C2: a concrete frame with type 2, a two-byte source, a
one-byte target, three content bytes and a large timestamp survives the
encode/decode round trip. -/
theorem serialize_roundtrip_witness :
    SerializableMessage.Deserialize
        (SerializableMessage.Serialize
          ⟨byteOf 2, [byteOf 104, byteOf 105], [byteOf 65],
            [byteOf 1, byteOf 2, byteOf 3], 123456789⟩) =
      ⟨byteOf 2, [byteOf 104, byteOf 105], [byteOf 65],
        [byteOf 1, byteOf 2, byteOf 3], 123456789⟩ :=
  serialize_roundtrip _ (by decide) (by decide) (by decide) (by decide)
